import Mathlib

/-!
Shallow embedding of the dcgrants repository:

* `contracts/contracts/MerkleGrantRoundPayout.sol` — the on-chain payout
  contract (claim ledger): packed claimed bitmap, Merkle-proof check,
  one-time token transfer, `claim` and `batchClaim`.
* the frontend grant data layer (`getAllGrants`, `grantListener`'s
  `areMetaPtrsEqual`, `getApprovedGrants`).

Modelling conventions:

* Solidity `uint256` values, addresses and `bytes32` words are modelled as
  `Nat`; every arithmetic operation performed by the contract
  (`/ 256`, `% 256`, `1 << (i % 256)`, `|`, `&`) stays below `2 ^ 256`
  whenever its inputs do, so no `% 2 ^ 256` truncation point is reachable
  and plain `Nat` arithmetic is exact.
* `keccak256(abi.encodePacked(...))` is not in scope of the repository; the
  two hash shapes the contract uses (a pair of `bytes32` words inside
  `MerkleProof.verify`, and the `(uint256, address, uint256)` leaf encoding)
  are modelled as two function-valued parameters of the environment.
* The ERC20 token is an external contract; `token.safeTransfer` is modelled
  as a ledger recording the cumulative amount transferred out to each
  address, and the transfer itself always succeeds.
* Reverts (`require`) are modelled with `Except String`; transaction
  semantics (a revert undoes every effect of the transaction) is
  `execTx`, which keeps the pre-state on error.
-/

/-- One claim record, the `Claim` struct of `MerkleGrantRoundPayout.sol`:
index in the claimed bitmap, payee address, amount, and Merkle proof. -/
structure Claim where
  index : Nat
  payee : Nat
  amount : Nat
  merkleProof : List Nat
deriving DecidableEq, Repr

/-- The `Claimed(index, payee, amount)` event of the contract. -/
structure ClaimedEvent where
  index : Nat
  payee : Nat
  amount : Nat
deriving DecidableEq, Repr

/-- Mutable contract state: the packed `claimedBitMap` mapping
(word index to 256-bit word) and the external token ledger `paid`
(cumulative amount the contract has transferred to each address). -/
structure PayoutState where
  claimedBitMap : Nat → Nat
  paid : Nat → Nat

/-- Immutable environment of the contract: the `merkleRoot`, and the two
shapes of `keccak256(abi.encodePacked(...))` it uses, left abstract. -/
structure PayoutEnv where
  merkleRoot : Nat
  keccakPair : Nat → Nat → Nat
  keccakLeaf : Nat → Nat → Nat → Nat

/-- The private `_setClaimed` of `MerkleGrantRoundPayout.sol`:
`claimedBitMap[i / 256] |= 1 << (i % 256)`. -/
def setClaimed (bm : Nat → Nat) (i : Nat) : Nat → Nat :=
  fun w => if w = i / 256 then bm w ||| (1 <<< (i % 256)) else bm w

/-- The public view `hasClaimed` of `MerkleGrantRoundPayout.sol`:
`claimedBitMap[i / 256] & (1 << (i % 256)) == 1 << (i % 256)`. -/
def hasClaimed (bm : Nat → Nat) (i : Nat) : Bool :=
  let claimedWord := bm (i / 256)
  let mask := 1 <<< (i % 256)
  claimedWord &&& mask == mask

/-- OpenZeppelin `MerkleProof.verify` as used by the contract: fold the
proof over the leaf, hashing the sorted pair at each step, and compare the
result with the root. -/
def merkleVerify (keccakPair : Nat → Nat → Nat) (proof : List Nat)
    (root leaf : Nat) : Bool :=
  proof.foldl
    (fun computedHash proofElement =>
      if computedHash ≤ proofElement then keccakPair computedHash proofElement
      else keccakPair proofElement computedHash)
    leaf == root

/-- The `claim` function of `MerkleGrantRoundPayout.sol`: require the index
unclaimed, require the Merkle proof of the leaf
`keccak256(abi.encodePacked(index, payee, amount))` against `merkleRoot`,
then set the bit, transfer the amount to the payee and emit `Claimed`. -/
def claim (env : PayoutEnv) (s : PayoutState) (c : Claim) :
    Except String (PayoutState × List ClaimedEvent) :=
  if hasClaimed s.claimedBitMap c.index then
    .error "MerkleGrantRoundPayout: Funds already claimed"
  else
    if merkleVerify env.keccakPair c.merkleProof env.merkleRoot
        (env.keccakLeaf c.index c.payee c.amount) then
      .ok ({ claimedBitMap := setClaimed s.claimedBitMap c.index,
             paid := fun a => if a = c.payee then s.paid a + c.amount else s.paid a },
           [⟨c.index, c.payee, c.amount⟩])
    else
      .error "MerkleGrantRoundPayout: Invalid proof."

/-- The `batchClaim` function of `MerkleGrantRoundPayout.sol`: a loop
calling `claim` on each element in array order; the first revert aborts
the whole call. -/
def batchClaim (env : PayoutEnv) (s : PayoutState) :
    List Claim → Except String (PayoutState × List ClaimedEvent)
  | [] => .ok (s, [])
  | c :: rest =>
    match claim env s c with
    | .ok (s1, evs1) =>
      match batchClaim env s1 rest with
      | .ok (s2, evs2) => .ok (s2, evs1 ++ evs2)
      | .error e => .error e
    | .error e => .error e

/-- External transactions on the contract: a `claim` call or a
`batchClaim` call. -/
inductive PayoutOp where
  | claimOp : Claim → PayoutOp
  | batchClaimOp : List Claim → PayoutOp

/-- EVM transaction semantics: a reverted transaction leaves the state
exactly as it was. -/
def execTx (env : PayoutEnv) (s : PayoutState) : PayoutOp → PayoutState
  | .claimOp c =>
    match claim env s c with
    | .ok (s1, _) => s1
    | .error _ => s
  | .batchClaimOp cs =>
    match batchClaim env s cs with
    | .ok (s1, _) => s1
    | .error _ => s

/-- A sequence of transactions, executed in order. -/
def execTxs (env : PayoutEnv) (s : PayoutState) (ops : List PayoutOp) :
    PayoutState :=
  ops.foldl (execTx env) s

/-- Bridging lemma: the mask test the contract computes is exactly a
test of bit `i % 256` of the stored word. -/
theorem and_two_pow_eq_iff_testBit (x k : Nat) :
    (x &&& 2 ^ k = 2 ^ k) ↔ x.testBit k := by
  constructor
  · intro h
    have h2 := congrArg (fun y => y.testBit k) h
    simpa [Nat.testBit_and, Nat.testBit_two_pow_self] using h2
  · intro h
    apply Nat.eq_of_testBit_eq
    intro i
    rcases eq_or_ne i k with rfl | hik
    · simp [Nat.testBit_and, h]
    · simp [Nat.testBit_and, Nat.testBit_two_pow_of_ne (Ne.symm hik)]

/-- `hasClaimed` is a test of bit `i % 256` of word `i / 256`. -/
theorem hasClaimed_eq_testBit (bm : Nat → Nat) (i : Nat) :
    hasClaimed bm i = (bm (i / 256)).testBit (i % 256) := by
  simp only [hasClaimed, Nat.one_shiftLeft]
  by_cases h : (bm (i / 256)).testBit (i % 256)
  · simp [h, (and_two_pow_eq_iff_testBit _ _).mpr h]
  · have hf : (bm (i / 256)).testBit (i % 256) = false := by simpa using h
    rw [hf, beq_eq_false_iff_ne]
    intro hc
    exact h ((and_two_pow_eq_iff_testBit _ _).mp hc)

/-- Distinct indices occupy distinct (word, bit) positions. -/
theorem pos_ne_of_index_ne {i j : Nat} (hij : i ≠ j)
    (hw : i / 256 = j / 256) : i % 256 ≠ j % 256 := by
  intro hb
  apply hij
  have hi := Nat.div_add_mod i 256
  have hj := Nat.div_add_mod j 256
  omega

/-- Setting bit `i` makes `hasClaimed i` true. -/
theorem hasClaimed_setClaimed_self (bm : Nat → Nat) (i : Nat) :
    hasClaimed (setClaimed bm i) i = true := by
  rw [hasClaimed_eq_testBit]
  simp [setClaimed, Nat.one_shiftLeft, Nat.testBit_or, Nat.testBit_two_pow_self]

/-- Setting bit `i` does not change any other bit `j`. -/
theorem hasClaimed_setClaimed_ne (bm : Nat → Nat) {i j : Nat} (hij : i ≠ j) :
    hasClaimed (setClaimed bm i) j = hasClaimed bm j := by
  rw [hasClaimed_eq_testBit, hasClaimed_eq_testBit]
  unfold setClaimed
  by_cases hw : j / 256 = i / 256
  · have hb : i % 256 ≠ j % 256 := pos_ne_of_index_ne hij hw.symm
    simp [hw, Nat.one_shiftLeft, Nat.testBit_or, Nat.testBit_two_pow_of_ne hb]
  · simp [hw]

/-- Setting a bit never clears a set bit. -/
theorem hasClaimed_setClaimed_mono (bm : Nat → Nat) (i j : Nat)
    (h : hasClaimed bm j = true) :
    hasClaimed (setClaimed bm i) j = true := by
  rcases eq_or_ne i j with rfl | hij
  · exact hasClaimed_setClaimed_self bm i
  · rw [hasClaimed_setClaimed_ne bm hij]; exact h

/-- Success-shape lemma for `claim`: a call returns `ok` exactly when the
index is unclaimed and the proof verifies, and then the result is the
updated state and the single `Claimed` event. -/
theorem claim_eq_ok (env : PayoutEnv) (s : PayoutState) (c : Claim)
    (r : PayoutState × List ClaimedEvent) :
    claim env s c = .ok r ↔
      hasClaimed s.claimedBitMap c.index = false ∧
      merkleVerify env.keccakPair c.merkleProof env.merkleRoot
        (env.keccakLeaf c.index c.payee c.amount) = true ∧
      ({ claimedBitMap := setClaimed s.claimedBitMap c.index,
         paid := fun a => if a = c.payee then s.paid a + c.amount else s.paid a },
        [⟨c.index, c.payee, c.amount⟩]) = r := by
  unfold claim
  by_cases h1 : hasClaimed s.claimedBitMap c.index
  · simp [h1]
  · by_cases h2 : merkleVerify env.keccakPair c.merkleProof env.merkleRoot
        (env.keccakLeaf c.index c.payee c.amount)
    · simp [h1, h2]
    · simp [h1, h2]

/-- A successful `claim` only ever sets the claimed bit of its own index
on top of the previous bitmap. -/
theorem claim_ok_mono (env : PayoutEnv) (s s1 : PayoutState) (c : Claim)
    (evs : List ClaimedEvent) (h : claim env s c = .ok (s1, evs)) (i : Nat)
    (hi : hasClaimed s.claimedBitMap i = true) :
    hasClaimed s1.claimedBitMap i = true := by
  obtain ⟨-, -, hr⟩ := (claim_eq_ok env s c (s1, evs)).mp h
  rw [Prod.mk.injEq] at hr
  rw [← hr.1]
  exact hasClaimed_setClaimed_mono s.claimedBitMap c.index i hi

/-- A successful `batchClaim` never clears a claimed bit. -/
theorem batchClaim_ok_mono (env : PayoutEnv) (cs : List Claim) :
    ∀ s s1 evs, batchClaim env s cs = .ok (s1, evs) →
      ∀ i, hasClaimed s.claimedBitMap i = true →
        hasClaimed s1.claimedBitMap i = true := by
  induction cs with
  | nil =>
    intro s s1 evs h i hi
    simp only [batchClaim, Except.ok.injEq, Prod.mk.injEq] at h
    rw [← h.1]
    exact hi
  | cons c rest ih =>
    intro s s1 evs h i hi
    cases hc : claim env s c with
    | error e =>
      unfold batchClaim at h
      rw [hc] at h
      simp at h
    | ok r =>
      obtain ⟨sA, evsA⟩ := r
      unfold batchClaim at h
      rw [hc] at h
      dsimp only at h
      cases hb : batchClaim env sA rest with
      | error e =>
        rw [hb] at h
        simp at h
      | ok r2 =>
        obtain ⟨sB, evsB⟩ := r2
        rw [hb] at h
        simp only [Except.ok.injEq, Prod.mk.injEq] at h
        rw [← h.1]
        exact ih sA sB evsB hb i (claim_ok_mono env s sA c evsA hc i hi)

/-- A single transaction (claim or batch claim, reverting or not) never
clears a claimed bit. -/
theorem execTx_mono (env : PayoutEnv) (s : PayoutState) (op : PayoutOp)
    (i : Nat) (hi : hasClaimed s.claimedBitMap i = true) :
    hasClaimed (execTx env s op).claimedBitMap i = true := by
  cases op with
  | claimOp c =>
    cases hc : claim env s c with
    | error e =>
      simp only [execTx, hc]
      exact hi
    | ok r =>
      obtain ⟨sA, evsA⟩ := r
      simp only [execTx, hc]
      exact claim_ok_mono env s sA c evsA hc i hi
  | batchClaimOp cs =>
    cases hb : batchClaim env s cs with
    | error e =>
      simp only [execTx, hb]
      exact hi
    | ok r =>
      obtain ⟨sA, evsA⟩ := r
      simp only [execTx, hb]
      exact batchClaim_ok_mono env cs s sA evsA hb i hi

/-- Concrete environment for witnesses: empty proofs verify a leaf that
hashes to the root itself. -/
def envW : PayoutEnv :=
  { merkleRoot := 0
    keccakPair := fun a b => a + b + 1
    keccakLeaf := fun _ _ _ => 0 }

/-- Fresh contract state: nothing claimed, nothing paid. -/
def sW : PayoutState := { claimedBitMap := fun _ => 0, paid := fun _ => 0 }

/-- A concrete claim record whose (empty) proof verifies under `envW`. -/
def cW : Claim := { index := 0, payee := 7, amount := 5, merkleProof := [] }

/-- The state after `claim envW sW cW` succeeds. -/
def sW1 : PayoutState :=
  { claimedBitMap := setClaimed sW.claimedBitMap cW.index
    paid := fun a => if a = cW.payee then sW.paid a + cW.amount else sW.paid a }

/-- A state in which index 3 is already claimed. -/
def sC3 : PayoutState := { claimedBitMap := setClaimed (fun _ => 0) 3, paid := fun _ => 0 }

/-- A claim record for the already-claimed index 3. -/
def cC3 : Claim := { index := 3, payee := 1, amount := 2, merkleProof := [] }

/-- C7: the claimed bitmap is a correctly packed boolean array: setting the
bit of index `i` leaves `hasClaimed j` unchanged for every `j ≠ i`, and
afterwards `hasClaimed i` is true (index `i` occupies bit `i % 256` of
word `i / 256`). -/
theorem setClaimed_packed_bitmap (bm : Nat → Nat) (i j : Nat) (hij : i ≠ j) :
    hasClaimed (setClaimed bm i) j = hasClaimed bm j ∧
    hasClaimed (setClaimed bm i) i = true :=
  ⟨hasClaimed_setClaimed_ne bm hij, hasClaimed_setClaimed_self bm i⟩

/-- Witness for C7 at a concrete bitmap and indices 3 and 5. -/
theorem setClaimed_packed_bitmap_witness :
    hasClaimed (setClaimed (fun _ => 0) 3) 5 = hasClaimed (fun _ => 0) 5 ∧
    hasClaimed (setClaimed (fun _ => 0) 3) 3 = true :=
  setClaimed_packed_bitmap (fun _ => 0) 3 5 (by decide)

/-- C1: `claim` succeeds exactly when the index is not yet claimed and the
Merkle proof verifies the leaf `keccak256(index, payee, amount)` against
the fixed `merkleRoot`; on success it marks the index claimed, transfers
the amount to the payee, and emits the single `Claimed` event. -/
theorem claim_correct (env : PayoutEnv) (s : PayoutState) (c : Claim) :
    ((∃ r, claim env s c = .ok r) ↔
      hasClaimed s.claimedBitMap c.index = false ∧
      merkleVerify env.keccakPair c.merkleProof env.merkleRoot
        (env.keccakLeaf c.index c.payee c.amount) = true) ∧
    (∀ s1 evs, claim env s c = .ok (s1, evs) →
      hasClaimed s1.claimedBitMap c.index = true ∧
      s1.paid c.payee = s.paid c.payee + c.amount ∧
      (∀ a, a ≠ c.payee → s1.paid a = s.paid a) ∧
      evs = [⟨c.index, c.payee, c.amount⟩]) := by
  constructor
  · constructor
    · rintro ⟨r, hr⟩
      obtain ⟨h1, h2, -⟩ := (claim_eq_ok env s c r).mp hr
      exact ⟨h1, h2⟩
    · rintro ⟨h1, h2⟩
      exact ⟨_, (claim_eq_ok env s c _).mpr ⟨h1, h2, rfl⟩⟩
  · intro s1 evs h
    obtain ⟨-, -, hr⟩ := (claim_eq_ok env s c (s1, evs)).mp h
    rw [Prod.mk.injEq] at hr
    refine ⟨?_, ?_, ?_, hr.2.symm⟩
    · rw [← hr.1]
      exact hasClaimed_setClaimed_self s.claimedBitMap c.index
    · rw [← hr.1]
      simp
    · intro a ha
      rw [← hr.1]
      simp [ha]

/-- Witness for C1: the concrete claim `cW` succeeds from the fresh state
and produces exactly the updated state `sW1`. -/
theorem claim_correct_witness :
    hasClaimed sW1.claimedBitMap 0 = true ∧ sW1.paid 7 = sW.paid 7 + 5 :=
  ⟨((claim_correct envW sW cW).2 sW1 [⟨0, 7, 5⟩] rfl).1,
   ((claim_correct envW sW cW).2 sW1 [⟨0, 7, 5⟩] rfl).2.1⟩

/-- C3: calling `claim` on an already-claimed index reverts with
"MerkleGrantRoundPayout: Funds already claimed" and, under transaction
semantics, leaves the claimed bitmap and the token ledger unchanged. -/
theorem claim_already_claimed (env : PayoutEnv) (s : PayoutState) (c : Claim)
    (h : hasClaimed s.claimedBitMap c.index = true) :
    claim env s c = .error "MerkleGrantRoundPayout: Funds already claimed" ∧
    execTx env s (.claimOp c) = s ∧
    (∀ i, hasClaimed (execTx env s (.claimOp c)).claimedBitMap i =
      hasClaimed s.claimedBitMap i) ∧
    (execTx env s (.claimOp c)).paid = s.paid := by
  have he : claim env s c = .error "MerkleGrantRoundPayout: Funds already claimed" := by
    unfold claim
    rw [h]
    simp
  have hx : execTx env s (.claimOp c) = s := by
    simp only [execTx, he]
  exact ⟨he, hx, fun i => by rw [hx], by rw [hx]⟩

/-- Witness for C3: re-claiming index 3 from `sC3` reverts and keeps the
state. -/
theorem claim_already_claimed_witness :
    claim envW sC3 cC3 = Except.error "MerkleGrantRoundPayout: Funds already claimed" ∧
    execTx envW sC3 (PayoutOp.claimOp cC3) = sC3 :=
  ⟨(claim_already_claimed envW sC3 cC3 (by decide)).1,
   (claim_already_claimed envW sC3 cC3 (by decide)).2.1⟩

/-- C2: the claimed state of every index is monotonic: once `hasClaimed i`
is true, no sequence of `claim` or `batchClaim` transactions ever makes it
false again. -/
theorem hasClaimed_monotonic (env : PayoutEnv) (s : PayoutState)
    (ops : List PayoutOp) (i : Nat)
    (h : hasClaimed s.claimedBitMap i = true) :
    hasClaimed (execTxs env s ops).claimedBitMap i = true := by
  induction ops generalizing s with
  | nil => exact h
  | cons op rest ih =>
    exact ih (execTx env s op) (execTx_mono env s op i h)

/-- Witness for C2: index 3 stays claimed across a successful claim and a
reverting batch claim. -/
theorem hasClaimed_monotonic_witness :
    hasClaimed
      (execTxs envW sC3 [PayoutOp.claimOp cW, PayoutOp.batchClaimOp [cW]]).claimedBitMap
      3 = true :=
  hasClaimed_monotonic envW sC3 [PayoutOp.claimOp cW, PayoutOp.batchClaimOp [cW]] 3
    (by decide)

/-- One step of the sequential composition of `claim` calls: run `claim`
from the accumulated state and append its events. -/
def claimStep (env : PayoutEnv) (acc : PayoutState × List ClaimedEvent)
    (c : Claim) : Except String (PayoutState × List ClaimedEvent) :=
  match claim env acc.1 c with
  | .ok r => .ok (r.1, acc.2 ++ r.2)
  | .error e => .error e

/-- Sequential composition of `claim` calls in array order, written as a
monadic fold (the spec-side reading of "calling claim(claims[0]), ...,
claim(claims[n-1]) sequentially"): each step threads the state of the
previous successful call and appends its events; the first failure aborts. -/
def claimSequentially (env : PayoutEnv) (s : PayoutState) (cs : List Claim) :
    Except String (PayoutState × List ClaimedEvent) :=
  cs.foldlM (claimStep env) (s, [])

/-- Generalized fold lemma relating `batchClaim` to the event-accumulating
fold of `claimSequentially`. -/
theorem claimSequentially_fold (env : PayoutEnv) (cs : List Claim) :
    ∀ s acc,
      cs.foldlM (claimStep env) (s, acc) =
      match batchClaim env s cs with
      | .ok (s1, evs) => .ok (s1, acc ++ evs)
      | .error e => .error e := by
  induction cs with
  | nil =>
    intro s acc
    show (Except.ok (s, acc) : Except String (PayoutState × List ClaimedEvent)) = _
    unfold batchClaim
    simp
  | cons c rest ih =>
    intro s acc
    rw [List.foldlM_cons]
    cases hc : claim env s c with
    | error e =>
      unfold batchClaim
      rw [hc]
      have hstep : claimStep env (s, acc) c = .error e := by
        simp [claimStep, hc]
      rw [hstep]
      rfl
    | ok r =>
      obtain ⟨sA, evsA⟩ := r
      unfold batchClaim
      rw [hc]
      dsimp only
      have hstep : claimStep env (s, acc) c = .ok (sA, acc ++ evsA) := by
        simp [claimStep, hc]
      rw [hstep]
      show rest.foldlM (claimStep env) (sA, acc ++ evsA) = _
      rw [ih sA (acc ++ evsA)]
      cases hb : batchClaim env sA rest with
      | error e => rfl
      | ok r2 =>
        obtain ⟨sB, evsB⟩ := r2
        simp [List.append_assoc]

/-- C8: `batchClaim` is a loop over its argument: it performs exactly the
same state transitions and emits the same events as calling `claim` on each
element sequentially in array order. -/
theorem batchClaim_eq_claimSequentially (env : PayoutEnv) (s : PayoutState)
    (cs : List Claim) :
    batchClaim env s cs = claimSequentially env s cs := by
  rw [claimSequentially, claimSequentially_fold env cs s []]
  cases hb : batchClaim env s cs with
  | error e => rfl
  | ok r =>
    obtain ⟨sA, evsA⟩ := r
    simp

/-- Defining equation of `batchClaim` on the empty batch. -/
theorem batchClaim_nil (env : PayoutEnv) (s : PayoutState) :
    batchClaim env s [] = .ok (s, []) := rfl

/-- Defining equation of `batchClaim` on a non-empty batch. -/
theorem batchClaim_cons (env : PayoutEnv) (s : PayoutState) (c : Claim)
    (rest : List Claim) :
    batchClaim env s (c :: rest) =
      match claim env s c with
      | .ok (s1, evs1) =>
        match batchClaim env s1 rest with
        | .ok (s2, evs2) => .ok (s2, evs1 ++ evs2)
        | .error e => .error e
      | .error e => .error e := rfl

/-- `batchClaim` over a concatenation runs the first part, then the second
from the resulting state; an error in either part is the error of the
whole. -/
theorem batchClaim_append (env : PayoutEnv) (xs ys : List Claim) :
    ∀ s, batchClaim env s (xs ++ ys) =
      match batchClaim env s xs with
      | .ok (s1, evs1) =>
        match batchClaim env s1 ys with
        | .ok (s2, evs2) => .ok (s2, evs1 ++ evs2)
        | .error e => .error e
      | .error e => .error e := by
  induction xs with
  | nil =>
    intro s
    rw [List.nil_append, batchClaim_nil]
    dsimp only
    cases hb : batchClaim env s ys with
    | error e => rfl
    | ok r =>
      obtain ⟨sB, evsB⟩ := r
      simp
  | cons c rest ih =>
    intro s
    rw [List.cons_append, batchClaim_cons, batchClaim_cons]
    cases hc : claim env s c with
    | error e => rfl
    | ok r =>
      obtain ⟨sA, evsA⟩ := r
      dsimp only
      rw [ih sA]
      cases hb : batchClaim env sA rest with
      | error e => rfl
      | ok r2 =>
        obtain ⟨sB, evsB⟩ := r2
        dsimp only
        cases hy : batchClaim env sB ys with
        | error e => rfl
        | ok r3 =>
          obtain ⟨sC, evsC⟩ := r3
          simp [List.append_assoc]

/-- C9: `batchClaim` is atomic: if element `k` of the batch fails after the
prefix before it succeeded, the entire batch reverts with that element's
error, and under transaction semantics no bitmap bit is set and no token
transfer occurs for any element of the batch, including the elements
before the failing one. -/
theorem batchClaim_atomic (env : PayoutEnv) (s : PayoutState)
    (cs : List Claim) (k : Nat) (hk : k < cs.length) (sk : PayoutState)
    (evs : List ClaimedEvent) (e : String)
    (hpre : batchClaim env s (cs.take k) = .ok (sk, evs))
    (hfail : claim env sk (cs.get ⟨k, hk⟩) = .error e) :
    batchClaim env s cs = .error e ∧
    execTx env s (.batchClaimOp cs) = s ∧
    (∀ i, hasClaimed (execTx env s (.batchClaimOp cs)).claimedBitMap i =
      hasClaimed s.claimedBitMap i) ∧
    (execTx env s (.batchClaimOp cs)).paid = s.paid := by
  have herr : batchClaim env s cs = .error e := by
    conv_lhs =>
      rw [show cs = cs.take k ++ cs.get ⟨k, hk⟩ :: cs.drop (k + 1) by
        conv_lhs => rw [← List.take_append_drop k cs]
        rw [List.drop_eq_get_cons hk]]
    rw [batchClaim_append env (cs.take k) (cs.get ⟨k, hk⟩ :: cs.drop (k + 1)) s,
      hpre]
    dsimp only
    rw [batchClaim_cons, hfail]
  have hx : execTx env s (.batchClaimOp cs) = s := by
    simp only [execTx, herr]
  exact ⟨herr, hx, fun i => by rw [hx], by rw [hx]⟩

/-- Witness for C9: the batch `[cW, cW]` fails at its second element (the
index is already claimed by the first) and reverts as a whole, leaving the
fresh state untouched. -/
theorem batchClaim_atomic_witness :
    batchClaim envW sW [cW, cW] =
      Except.error "MerkleGrantRoundPayout: Funds already claimed" ∧
    execTx envW sW (PayoutOp.batchClaimOp [cW, cW]) = sW :=
  ⟨(batchClaim_atomic envW sW [cW, cW] 1 Nat.one_lt_two sW1 [⟨0, 7, 5⟩]
      "MerkleGrantRoundPayout: Funds already claimed" rfl rfl).1,
   (batchClaim_atomic envW sW [cW, cW] 1 Nat.one_lt_two sW1 [⟨0, 7, 5⟩]
      "MerkleGrantRoundPayout: Funds already claimed" rfl rfl).2.1⟩

/-- A pointer (protocol + content address) to off-chain grant metadata.
The numeric `protocol` field is modelled as `Nat`. -/
structure MetaPtr where
  protocol : Nat
  pointer : String
deriving DecidableEq, Repr

/-- One grant record as stored in the indexed grants cache. -/
structure Grant where
  id : Nat
  owner : Nat
  payee : Nat
  metaPtr : MetaPtr
  createdAt : Nat
  lastUpdated : Nat
deriving DecidableEq, Repr

/-- One grant row as returned by the subgraph query inside
`getAllGrants`. -/
structure SubgraphGrant where
  id : Nat
  owner : Nat
  payee : Nat
  metaPtr : MetaPtr
  createdAtTimestamp : Nat
  lastUpdatedTimestamp : Nat
  lastUpdatedBlockNumber : Nat
deriving DecidableEq, Repr

/-- The decoded arguments of a `GrantCreated` or `GrantUpdated` event as
consumed by `getAllGrants` (`tx.args`). -/
structure GrantEvent where
  id : Nat
  owner : Nat
  payee : Nat
  metaPtr : MetaPtr
  time : Nat
deriving DecidableEq, Repr

/-- The indexed grants object `_lsGrants`: a mapping from grant id to the
grant record currently stored for it. -/
def GrantMap : Type := Nat → Option Grant

/-- Javascript `_lsGrants[grant.id] = grant`. -/
def insertGrant (m : GrantMap) (g : Grant) : GrantMap :=
  fun k => if k = g.id then some g else m k

/-- How `getAllGrants` maps a subgraph row into a `Grant` record. -/
def mapSubgraphGrant (g : SubgraphGrant) : Grant :=
  { id := g.id
    owner := g.owner
    payee := g.payee
    metaPtr := g.metaPtr
    createdAt := g.createdAtTimestamp
    lastUpdated := g.lastUpdatedTimestamp }

/-- How `getAllGrants` maps an RPC event into a `Grant` record: `createdAt`
is taken from the record currently stored for the id (as of before any
event of this batch is written — the source maps all events first and only
then writes them), falling back to the event time. -/
def mapEventGrant (m : GrantMap) (e : GrantEvent) : Grant :=
  { id := e.id
    owner := e.owner
    payee := e.payee
    metaPtr := e.metaPtr
    createdAt := match m e.id with
      | some g => g.createdAt
      | none => e.time
    lastUpdated := e.time }

/-- The cached `LocalForageData` relevant to `getAllGrants`: the block
number the cache is synced to and the indexed grants (`data.grants`). -/
structure LocalForageData where
  blockNumber : Nat
  grants : GrantMap

/-- External world of one `getAllGrants` run: chain constants and the
responses of its two data sources. The subgraph response is the one answer
`recursiveGraphFetch` would produce (or a thrown error); the event oracles
give `batchFilterCall`'s result for a requested block range. -/
structure ChainEnv where
  startBlock : Nat
  hasSubgraphUrl : Bool
  subgraphResult : Except Unit (List SubgraphGrant)
  grantCreatedEvents : Nat → Nat → List GrantEvent
  grantUpdatedEvents : Nat → Nat → List GrantEvent

/-- Javascript `LocalForageData?.blockNumber || 0`. -/
def lsBlockNumberOf (cache : Option LocalForageData) : Nat :=
  match cache with
  | some d => d.blockNumber
  | none => 0

/-- Javascript `LocalForageData?.data?.grants || {}`. -/
def cacheGrants (cache : Option LocalForageData) : GrantMap :=
  match cache with
  | some d => d.grants
  | none => fun _ => none

/-- The refresh condition of `getAllGrants`:
`forceRefresh || !LocalForageData || _lsBlockNumber < latestBlockNumber`. -/
def refreshNeeded (cache : Option LocalForageData) (latestBlockNumber : Nat)
    (forceRefresh : Bool) : Bool :=
  forceRefresh || cache.isNone ||
    decide (lsBlockNumberOf cache < latestBlockNumber)

/-- Javascript `_lsBlockNumber ? _lsBlockNumber + 1 : START_BLOCK` (0 is
falsy). -/
def fromBlockOf (env : ChainEnv) (cache : Option LocalForageData) : Nat :=
  if lsBlockNumberOf cache ≠ 0 then lsBlockNumberOf cache + 1 else env.startBlock

/-- The subgraph stage of `getAllGrants`: when a subgraph URL is configured
and the request succeeds, every returned row overwrites the cached record
of its id and `fromBlock` advances to the latest block; on failure (or with
no URL) the grants and `fromBlock` are left as they were. Returns the
grants map and `fromBlock` after the stage. -/
def subgraphStep (env : ChainEnv) (cache : Option LocalForageData)
    (latestBlockNumber : Nat) : GrantMap × Nat :=
  if env.hasSubgraphUrl then
    match env.subgraphResult with
    | .ok sgs =>
      ((sgs.map mapSubgraphGrant).foldl insertGrant (cacheGrants cache),
        latestBlockNumber)
    | .error _ => (cacheGrants cache, fromBlockOf env cache)
  else (cacheGrants cache, fromBlockOf env cache)

/-- The events the RPC scan of `getAllGrants` consumes for a block range:
`GrantCreated` events first, then `GrantUpdated` events
(`[...newGrants, ...updatedGrants]`). -/
def rpcEvents (env : ChainEnv) (fromBlock latestBlockNumber : Nat) :
    List GrantEvent :=
  env.grantCreatedEvents fromBlock latestBlockNumber ++
    env.grantUpdatedEvents fromBlock latestBlockNumber

/-- The `getAllGrants` routine: if a refresh is due, run the subgraph stage
and, when `fromBlock` is still strictly below the latest block, the RPC
event scan over `[fromBlock, latestBlockNumber]`, each record overwriting
the stored record of its id; otherwise return the cached grants. The
source hydrates this mapping into an array of its values and conditionally
persists it; we return the mapping itself. -/
def getAllGrants (env : ChainEnv) (cache : Option LocalForageData)
    (latestBlockNumber : Nat) (forceRefresh : Bool) : GrantMap :=
  if refreshNeeded cache latestBlockNumber forceRefresh then
    if (subgraphStep env cache latestBlockNumber).2 < latestBlockNumber then
      ((rpcEvents env (subgraphStep env cache latestBlockNumber).2
            latestBlockNumber).map
          (mapEventGrant (subgraphStep env cache latestBlockNumber).1)).foldl
        insertGrant (subgraphStep env cache latestBlockNumber).1
    else (subgraphStep env cache latestBlockNumber).1
  else cacheGrants cache

/-- The `areMetaPtrsEqual` comparison of the grant event listener: it
compares the two protocol fields twice (once through the BigNumber decimal
rendering, once directly) and never looks at the pointer field. -/
def areMetaPtrsEqual (x y : MetaPtr) : Bool :=
  (toString x.protocol == toString y.protocol) && (x.protocol == y.protocol)

/-- C10: `areMetaPtrsEqual` ignores the pointer field: it returns true
whenever the two protocol fields are equal, even if the pointers differ —
so a grant update that changes only the pointer does not trigger a
metadata re-fetch in the listener. -/
theorem areMetaPtrsEqual_ignores_pointer (x y : MetaPtr)
    (h : x.protocol = y.protocol) : areMetaPtrsEqual x y = true := by
  simp [areMetaPtrsEqual, h]

/-- Witness for C10: equal protocols, different pointers. -/
theorem areMetaPtrsEqual_ignores_pointer_witness :
    areMetaPtrsEqual ⟨1, "QmOld"⟩ ⟨1, "QmNew"⟩ = true :=
  areMetaPtrsEqual_ignores_pointer ⟨1, "QmOld"⟩ ⟨1, "QmNew"⟩ rfl

/-- The grant records one `getAllGrants` run writes over the cache, in
processing order: subgraph rows (when the subgraph was used successfully),
then the mapped RPC events (when the scan ran), each mapped exactly as
`getAllGrants` maps them; empty when no refresh is due. -/
def processedRecords (env : ChainEnv) (cache : Option LocalForageData)
    (latestBlockNumber : Nat) (forceRefresh : Bool) : List Grant :=
  if refreshNeeded cache latestBlockNumber forceRefresh then
    (if env.hasSubgraphUrl then
      match env.subgraphResult with
      | .ok sgs => sgs.map mapSubgraphGrant
      | .error _ => []
     else []) ++
    (if (subgraphStep env cache latestBlockNumber).2 < latestBlockNumber then
      (rpcEvents env (subgraphStep env cache latestBlockNumber).2
          latestBlockNumber).map
        (mapEventGrant (subgraphStep env cache latestBlockNumber).1)
     else [])
  else []

/-- The last record carrying id `i` in a list of grant records, if any. -/
def lastMatching (i : Nat) : List Grant → Option Grant
  | [] => none
  | g :: rest =>
    match lastMatching i rest with
    | some g1 => some g1
    | none => if g.id = i then some g else none

/-- Folding record writes over a map reads back as: the last written
record with the queried id, else whatever the map held before. -/
theorem foldl_insertGrant_apply (gs : List Grant) :
    ∀ (m : GrantMap) (i : Nat),
      gs.foldl insertGrant m i =
        match lastMatching i gs with
        | some g => some g
        | none => m i := by
  induction gs with
  | nil => intro m i; rfl
  | cons g rest ih =>
    intro m i
    rw [List.foldl_cons, ih (insertGrant m g) i,
      show lastMatching i (g :: rest) =
        (match lastMatching i rest with
         | some g1 => some g1
         | none => if g.id = i then some g else none) from rfl]
    cases hrest : lastMatching i rest with
    | some g1 => rfl
    | none =>
      show insertGrant m g i = _
      unfold insertGrant
      by_cases hgi : g.id = i
      · simp [hgi]
      · simp [hgi, Ne.symm hgi]

/-- C4 amended: the mapping `getAllGrants` produces associates each grant
id with the most recently processed record for that id — cache first, then
subgraph rows in order, then RPC events (created then updated) — i.e.
last write wins by processing order, not the record with the greatest
`lastUpdated` timestamp. -/
theorem getAllGrants_last_write_wins (env : ChainEnv)
    (cache : Option LocalForageData) (latestBlockNumber : Nat)
    (forceRefresh : Bool) (i : Nat) :
    getAllGrants env cache latestBlockNumber forceRefresh i =
      match lastMatching i
          (processedRecords env cache latestBlockNumber forceRefresh) with
      | some g => some g
      | none => cacheGrants cache i := by
  unfold getAllGrants processedRecords
  cases hR : refreshNeeded cache latestBlockNumber forceRefresh with
  | false => rfl
  | true =>
    cases hU : env.hasSubgraphUrl with
    | true =>
      cases hS : env.subgraphResult with
      | ok sgs =>
        have hstep : subgraphStep env cache latestBlockNumber =
            ((sgs.map mapSubgraphGrant).foldl insertGrant (cacheGrants cache),
              latestBlockNumber) := by
          simp [subgraphStep, hU, hS]
        rw [hstep]
        dsimp only
        rw [if_neg (Nat.lt_irrefl latestBlockNumber),
          if_neg (Nat.lt_irrefl latestBlockNumber), List.append_nil]
        simp only [eq_self_iff_true, if_true]
        rw [foldl_insertGrant_apply]
      | error e =>
        have hstep : subgraphStep env cache latestBlockNumber =
            (cacheGrants cache, fromBlockOf env cache) := by
          simp [subgraphStep, hU, hS]
        rw [hstep]
        dsimp only
        by_cases hF : fromBlockOf env cache < latestBlockNumber
        · rw [if_pos hF, if_pos hF]
          simp only [eq_self_iff_true, if_true, List.nil_append]
          rw [foldl_insertGrant_apply]
        · rw [if_neg hF, if_neg hF]
          simp only [eq_self_iff_true, if_true, List.append_nil]
          rfl
    | false =>
      have hstep : subgraphStep env cache latestBlockNumber =
          (cacheGrants cache, fromBlockOf env cache) := by
        simp [subgraphStep, hU]
      rw [hstep]
      dsimp only
      by_cases hF : fromBlockOf env cache < latestBlockNumber
      · rw [if_pos hF, if_pos hF]
        simp only [eq_self_iff_true, if_true, Bool.false_eq_true, if_false,
          List.nil_append]
        rw [foldl_insertGrant_apply]
      · rw [if_neg hF, if_neg hF]
        simp only [eq_self_iff_true, if_true, Bool.false_eq_true, if_false,
          List.append_nil]
        rfl

/-- Concrete metadata pointer for the data-layer examples. -/
def mpX : MetaPtr := { protocol := 1, pointer := "QmX" }

/-- A cached grant record for id 1 with `lastUpdated` 100. -/
def g100 : Grant :=
  { id := 1, owner := 11, payee := 12, metaPtr := mpX, createdAt := 10,
    lastUpdated := 100 }

/-- A cache synced to block 5 holding `g100` under id 1. -/
def cacheC4 : LocalForageData :=
  { blockNumber := 5, grants := fun k => if k = 1 then some g100 else none }

/-- An RPC event for the same grant id 1 with the OLDER timestamp 50. -/
def evC4 : GrantEvent :=
  { id := 1, owner := 11, payee := 12, metaPtr := mpX, time := 50 }

/-- Environment for the C4 counterexample: no subgraph, the RPC scan
reports `evC4`. -/
def envC4 : ChainEnv :=
  { startBlock := 1
    hasSubgraphUrl := false
    subgraphResult := .error ()
    grantCreatedEvents := fun _ _ => [evC4]
    grantUpdatedEvents := fun _ _ => [] }

/-- Counterexample to C4 as stated: refreshing from block 5 to block 10,
the cache holds a record for grant 1 with `lastUpdated` 100, the RPC scan
returns an event for grant 1 with timestamp 50, and the resulting mapping
holds the event record with `lastUpdated` 50 — not the record with the
greatest `lastUpdated` (100) among the records seen for that id.
Overwriting is by processing order, never by timestamp comparison. -/
theorem getAllGrants_not_latest_by_timestamp :
    getAllGrants envC4 (some cacheC4) 10 false 1 =
      some { id := 1, owner := 11, payee := 12, metaPtr := mpX,
             createdAt := 10, lastUpdated := 50 } ∧
    cacheGrants (some cacheC4) 1 = some g100 ∧
    g100.lastUpdated = 100 ∧ (50 : Nat) < 100 :=
  ⟨rfl, rfl, rfl, by decide⟩

/-- A cache synced to block 9 with no grants. -/
def cacheC5 : LocalForageData := { blockNumber := 9, grants := fun _ => none }

/-- An RPC event for grant 7. -/
def evC5 : GrantEvent :=
  { id := 7, owner := 1, payee := 2, metaPtr := mpX, time := 99 }

/-- Environment for the C5 counterexample: a subgraph is configured but its
request fails; the RPC oracle would report `evC5` for any range. -/
def envC5 : ChainEnv :=
  { startBlock := 1
    hasSubgraphUrl := true
    subgraphResult := .error ()
    grantCreatedEvents := fun _ _ => [evC5]
    grantUpdatedEvents := fun _ _ => [] }

/-- Counterexample to C5 as stated: a refresh is due (cache at block 9,
latest block 10), the subgraph request fails, and the RPC oracle reports a
GrantCreated event for grant 7 over the requested range
[fromBlock, latest] = [10, 10]; merging those events would put grant 7
into the mapping, yet `getAllGrants` returns no record for grant 7: the
RPC fallback only runs when fromBlock is STRICTLY below the latest block,
so here it is skipped despite the subgraph failure. -/
theorem getAllGrants_fallback_skipped :
    refreshNeeded (some cacheC5) 10 false = true ∧
    envC5.subgraphResult = Except.error () ∧
    fromBlockOf envC5 (some cacheC5) = 10 ∧
    ((rpcEvents envC5 (fromBlockOf envC5 (some cacheC5)) 10).map
        (mapEventGrant (cacheGrants (some cacheC5)))).foldl insertGrant
      (cacheGrants (some cacheC5)) 7 =
      some { id := 7, owner := 1, payee := 2, metaPtr := mpX,
             createdAt := 99, lastUpdated := 99 } ∧
    getAllGrants envC5 (some cacheC5) 10 false 7 = none :=
  ⟨rfl, rfl, rfl, rfl, rfl⟩

/-- C5 amended: on a refresh with a configured subgraph, if the subgraph
request fails the routine falls back to the RPC event-log scan over the
very range [fromBlock, latestBlockNumber] the subgraph was asked for and
merges the GrantCreated and GrantUpdated events into the grant mapping —
provided fromBlock < latestBlockNumber (otherwise the scan is skipped and
the cached grants are returned unchanged); if the subgraph request
succeeds, the RPC scan is skipped and only subgraph rows are merged. -/
theorem getAllGrants_subgraph_fallback (env : ChainEnv)
    (cache : Option LocalForageData) (latestBlockNumber : Nat)
    (forceRefresh : Bool)
    (hR : refreshNeeded cache latestBlockNumber forceRefresh = true)
    (hU : env.hasSubgraphUrl = true) :
    (env.subgraphResult = .error () →
      fromBlockOf env cache < latestBlockNumber →
      getAllGrants env cache latestBlockNumber forceRefresh =
        ((rpcEvents env (fromBlockOf env cache) latestBlockNumber).map
            (mapEventGrant (cacheGrants cache))).foldl insertGrant
          (cacheGrants cache)) ∧
    (env.subgraphResult = .error () →
      ¬ fromBlockOf env cache < latestBlockNumber →
      getAllGrants env cache latestBlockNumber forceRefresh =
        cacheGrants cache) ∧
    (∀ sgs, env.subgraphResult = .ok sgs →
      getAllGrants env cache latestBlockNumber forceRefresh =
        (sgs.map mapSubgraphGrant).foldl insertGrant (cacheGrants cache)) := by
  refine ⟨?_, ?_, ?_⟩
  · intro hS hF
    have hstep : subgraphStep env cache latestBlockNumber =
        (cacheGrants cache, fromBlockOf env cache) := by
      simp [subgraphStep, hU, hS]
    unfold getAllGrants
    rw [hR, hstep]
    dsimp only
    rw [if_pos hF]
    simp
  · intro hS hF
    have hstep : subgraphStep env cache latestBlockNumber =
        (cacheGrants cache, fromBlockOf env cache) := by
      simp [subgraphStep, hU, hS]
    unfold getAllGrants
    rw [hR, hstep]
    dsimp only
    rw [if_neg hF]
    simp
  · intro sgs hS
    have hstep : subgraphStep env cache latestBlockNumber =
        ((sgs.map mapSubgraphGrant).foldl insertGrant (cacheGrants cache),
          latestBlockNumber) := by
      simp [subgraphStep, hU, hS]
    unfold getAllGrants
    rw [hR, hstep]
    dsimp only
    rw [if_neg (Nat.lt_irrefl latestBlockNumber)]
    simp

/-- A cache synced to block 5 with no grants, for the C5 witness. -/
def cacheW5 : LocalForageData := { blockNumber := 5, grants := fun _ => none }

/-- Witness for C5 (amended): with the cache at block 5 and latest block
10, the failed subgraph request makes `getAllGrants` merge exactly the RPC
events of the range [6, 10]. -/
theorem getAllGrants_subgraph_fallback_witness :
    getAllGrants envC5 (some cacheW5) 10 false =
      ((rpcEvents envC5 (fromBlockOf envC5 (some cacheW5)) 10).map
          (mapEventGrant (cacheGrants (some cacheW5)))).foldl insertGrant
        (cacheGrants (some cacheW5)) :=
  (getAllGrants_subgraph_fallback envC5 (some cacheW5) 10 false rfl rfl).1
    rfl (by decide)

/-- A whitelist: for each chain id, the list of approved grant ids (the
remote JSON is a record keyed by chain id; we model the lookup as total,
matching the `Whitelist` type the source indexes directly). -/
def Whitelist : Type := Nat → List Nat

/-- The result of `getApprovedGrants`: the (possibly filtered) grants and
the approved grant ids of the current chain. -/
structure ApprovedGrants where
  grants : List Grant
  approvedGrantsPk : List Nat
deriving DecidableEq, Repr

/-- The `filterWhiteListed` closure of `getApprovedGrants`: keep the grants
whose id appears in the whitelist entry of the current chain id. -/
def filterWhiteListed (grants : List Grant) (whiteList : Whitelist)
    (chainId : Nat) : List Grant :=
  grants.filter (fun grant => (whiteList chainId).contains grant.id)

/-- The `getApprovedGrants` routine. Its inputs are the configuration flag
(whether a whitelist URL is set), the current chain id, the outcome of the
remote fetch (`.error` for a thrown fetch, `.ok none` for a falsy JSON
body, `.ok (some wl)` for a parsed whitelist) and the cached whitelist, if
any. It returns the `ApprovedGrants` value together with the whitelist
written to the cache (the source writes it via `setStorageKey` on fetch
success), or the thrown error. -/
def getApprovedGrants (hasWhitelistUrl : Bool) (chainId : Nat)
    (fetchResult : Except Unit (Option Whitelist))
    (cachedWhitelist : Option Whitelist) (grants : List Grant) :
    Except String (ApprovedGrants × Option Whitelist) :=
  if hasWhitelistUrl then
    let fallback : Except String (ApprovedGrants × Option Whitelist) :=
      match cachedWhitelist with
      | some cwl =>
        .ok ({ grants := filterWhiteListed grants cwl chainId,
               approvedGrantsPk := cwl chainId }, none)
      | none => .error "Failed to load whitelist and couldn't find a cached"
    match fetchResult with
    | .ok (some json) =>
      .ok ({ grants := filterWhiteListed grants json chainId,
             approvedGrantsPk := json chainId }, some json)
    | .ok none => fallback
    | .error _ => fallback
  else
    .ok ({ grants := grants, approvedGrantsPk := [] }, none)

/-- C6: with a whitelist URL configured, a successful fetch filters the
grants to exactly those whose id appears in the fetched whitelist entry
for the current chain id and caches the whitelist; on fetch failure the
same filter is applied with the previously cached whitelist; and on fetch
failure with no cached whitelist the call throws. -/
theorem getApprovedGrants_whitelist (chainId : Nat)
    (fetchResult : Except Unit (Option Whitelist))
    (cached : Option Whitelist) (grants : List Grant) :
    (∀ wl, fetchResult = .ok (some wl) →
      getApprovedGrants true chainId fetchResult cached grants =
        .ok ({ grants := filterWhiteListed grants wl chainId,
               approvedGrantsPk := wl chainId }, some wl)) ∧
    (∀ cwl, (fetchResult = .error () ∨ fetchResult = .ok none) →
      cached = some cwl →
      getApprovedGrants true chainId fetchResult cached grants =
        .ok ({ grants := filterWhiteListed grants cwl chainId,
               approvedGrantsPk := cwl chainId }, none)) ∧
    ((fetchResult = .error () ∨ fetchResult = .ok none) → cached = none →
      getApprovedGrants true chainId fetchResult cached grants =
        .error "Failed to load whitelist and couldn't find a cached") := by
  refine ⟨?_, ?_, ?_⟩
  · intro wl hf
    rw [getApprovedGrants.eq_def, hf]
    rfl
  · intro cwl hf hc
    rcases hf with hf | hf
    · rw [getApprovedGrants.eq_def, hf, hc]
      rfl
    · rw [getApprovedGrants.eq_def, hf, hc]
      rfl
  · intro hf hc
    rcases hf with hf | hf
    · rw [getApprovedGrants.eq_def, hf, hc]
      rfl
    · rw [getApprovedGrants.eq_def, hf, hc]
      rfl

/-- A concrete whitelist approving grants 1 and 3 on every chain. -/
def wlW : Whitelist := fun _ => [1, 3]

/-- Two concrete grants with ids 1 and 2. -/
def grantsW : List Grant :=
  [{ id := 1, owner := 11, payee := 12, metaPtr := mpX, createdAt := 10,
     lastUpdated := 100 },
   { id := 2, owner := 21, payee := 22, metaPtr := mpX, createdAt := 20,
     lastUpdated := 200 }]

/-- Witness for C6: a successful fetch of `wlW` on chain 4 keeps exactly
the grant with id 1 and caches the fetched whitelist. -/
theorem getApprovedGrants_whitelist_witness :
    getApprovedGrants true 4 (Except.ok (some wlW)) none grantsW =
      Except.ok ({ grants := filterWhiteListed grantsW wlW 4,
                   approvedGrantsPk := wlW 4 }, some wlW) :=
  (getApprovedGrants_whitelist 4 (Except.ok (some wlW)) none grantsW).1 wlW rfl
